import Mathlib

/-!
Verification of the infinite-canvas whiteboard subsystem of a portfolio
website (pan/zoom view controller, item drag/expand store, content-aware
sizing engine, card-focus controller).

The TypeScript source is embedded shallowly:
* numbers are rationals (`ℚ`); the one claim about IEEE special values
  (`NaN`/`Infinity` in `clampScale`) uses an explicit `JSNum` type with
  JavaScript's `Math.min`/`Math.max` semantics;
* DOM reads (viewport size, container rect, CSS custom properties, content
  measurements) are passed as explicit arguments;
* React state hooks become explicit state-passing functions.

Sources embedded: `constants/whiteboard.ts`, `utils/whiteboardUtils.ts`,
`utils/itemLayoutUtils.ts`, `utils/contentMeasurement.ts`,
`hooks/useWhiteboardView.ts`, `hooks/useWhiteboardItems.ts`,
`hooks/useCardFocus.ts`.
-/

namespace Whiteboard

/-- Source: `Transform` from `types/whiteboard.ts`: the camera `{x, y, scale}`. -/
structure Transform where
  x : ℚ
  y : ℚ
  scale : ℚ
deriving DecidableEq, Repr, Inhabited

/-- Source: `Point` from `types/whiteboard.ts`. -/
structure Point where
  x : ℚ
  y : ℚ
deriving DecidableEq, Repr, Inhabited

/-- Source: `WhiteboardItemPosition` (runtime shape, including the `rotation` field
added by `calculateInitialLayout`). -/
structure WhiteboardItemPosition where
  x : ℚ
  y : ℚ
  z : ℚ
  width : ℚ
  height : ℚ
  expanded : Bool
  rotation : ℚ
deriving DecidableEq, Repr, Inhabited

/-- Source: `WhiteboardItem` from `types/global.d.ts`; the opaque `data` reference is
never touched by the whiteboard core and is omitted. -/
structure WhiteboardItem where
  id : String
  type : String
  position : WhiteboardItemPosition
deriving DecidableEq, Repr, Inhabited

/-! ### constants/whiteboard.ts -/

namespace SCALES

def MIN : ℚ := 1/10

def INITIAL : ℚ := 3/10

def MAX : ℚ := 2

end SCALES

namespace STICKY_NOTE

def WIDTH : ℚ := 280

def HEIGHT : ℚ := 320

def MIN_WIDTH : ℚ := 120

def MIN_HEIGHT : ℚ := 120

def MAX_WIDTH : ℚ := 500

def MAX_HEIGHT : ℚ := 800

end STICKY_NOTE

/-! ### utils/whiteboardUtils.ts -/

/-- Source: `clampScale(scale, minScale, maxScale)`:
`Math.min(Math.max(scale, minScale), maxScale)` over ordinary numbers. -/
def clampScale (scale minScale maxScale : ℚ) : ℚ :=
  min (max scale minScale) maxScale

/-! ### hooks/useWhiteboardView.ts -/

/-- The `window.innerWidth`/`window.innerHeight` reads, passed explicitly. -/
structure Viewport where
  innerWidth : ℚ
  innerHeight : ℚ
deriving DecidableEq, Repr, Inhabited

/-- Source: `computeInitialTransform()`. -/
def computeInitialTransform : Transform :=
  { x := 0, y := 0, scale := SCALES.INITIAL }

/-- The `setTransform` body of `updateTransform`: clamps `x`/`y` to the
generous pan bounds and `scale` to `[SCALES.MIN, SCALES.MAX]`.  The
`newTransform` argument is the requested transform (a direct value, or the
result of applying a functional update to the previous transform). -/
def updateTransform (vp : Viewport) (newTransform : Transform) : Transform :=
  let maxPanX := vp.innerWidth * 2
  let maxPanY := vp.innerHeight * 2
  { x := max (-maxPanX) (min maxPanX newTransform.x),
    y := max (-maxPanY) (min maxPanY newTransform.y),
    scale := clampScale newTransform.scale SCALES.MIN SCALES.MAX }

/-- The list of states reached after each `updateTransform` call of a
sequence of updates (each update maps the previous transform to the
requested one, covering both direct and functional updates). -/
def runUpdates (vp : Viewport) : Transform → List (Transform → Transform) → List Transform
  | _, [] => []
  | t, u :: us =>
      let t1 := updateTransform vp (u t)
      t1 :: runUpdates vp t1 us

/-- Source: `handleZoom(newScale, focalX, focalY)`: adjusts the pan so that (per the
code comment) the focal point stays steady, then applies `updateTransform`. -/
def handleZoom (vp : Viewport) (t : Transform) (newScale focalX focalY : ℚ) : Transform :=
  let centerX := vp.innerWidth / 2
  let centerY := vp.innerHeight / 2
  let offsetX := focalX - centerX
  let offsetY := focalY - centerY
  let scaleFactor := newScale / t.scale
  let newX := t.x - (offsetX / t.scale) * (1 - 1/scaleFactor)
  let newY := t.y - (offsetY / t.scale) * (1 - 1/scaleFactor)
  updateTransform vp { x := newX, y := newY, scale := newScale }

/-- A `React.WheelEvent`, reduced to the fields `handleWheel` reads. -/
structure WheelEvent where
  deltaX : ℚ
  deltaY : ℚ
  clientX : ℚ
  clientY : ℚ
  ctrlKey : Bool
  metaKey : Bool
deriving DecidableEq, Repr, Inhabited

/-- Source: `handleWheel(e)`: with the zoom modifier, converts the wheel delta into a
clamped scale and zooms toward the cursor; otherwise pans by the wheel delta
scaled by `2.5 / transform.scale`, keeping the previous scale. -/
def handleWheel (vp : Viewport) (t : Transform) (e : WheelEvent) : Transform :=
  if e.ctrlKey || e.metaKey then
    let delta := -e.deltaY
    let zoomFactor : ℚ := 5/1000
    let direction : ℚ := if delta > 0 then 1 else -1
    let newScale := clampScale (t.scale * (1 + direction * zoomFactor * |delta| / 10))
      SCALES.MIN SCALES.MAX
    handleZoom vp t newScale e.clientX e.clientY
  else
    let panSpeed := (5/2) / t.scale
    let newX := t.x - e.deltaX * panSpeed
    let newY := t.y - e.deltaY * panSpeed
    updateTransform vp { x := newX, y := newY, scale := t.scale }

/-- Source: `centerView()`: resets to the initial transform (through `updateTransform`). -/
def centerView (vp : Viewport) : Transform :=
  updateTransform vp computeInitialTransform

/-- Modelled from the spec: the world-to-screen camera mapping
`screen = worldPoint * scale + viewportCenter + (x, y)`.  The stylesheet
defining `.transform-container` is not among the source files; the mapping
follows the spec's words, which agree with the in-source CSS comment
`transform: translate(-50%, -50%) translate3d(var(--translateX), var(--translateY), 0) scale(var(--scale))`
in `useWhiteboardZoom.ts` (scale applied to the point first, translation
added afterwards) and with the centering formula `transform.x = -x * scale`
used by `useCardFocus.ts` and `Whiteboard.tsx`. -/
def worldToScreen (vp : Viewport) (t : Transform) (w : Point) : Point :=
  { x := w.x * t.scale + vp.innerWidth / 2 + t.x,
    y := w.y * t.scale + vp.innerHeight / 2 + t.y }

/-! ### utils/itemLayoutUtils.ts -/

/-- Source: `Math.max(...)` over a non-empty spread of numbers; the whiteboard only
reaches it through `updateItemZIndex`, whose surrounding `map` produces no
element at all on an empty list (the JS `-Infinity` of an empty spread is
therefore never observed; `0` stands in for it). -/
def listMax : List ℚ → ℚ
  | [] => 0
  | q :: qs => qs.foldl max q

/-- The local `maxZ` of `updateItemZIndex`:
`Math.max(...items.map(item => item.position.z))`. -/
def maxZ (items : List WhiteboardItem) : ℚ :=
  listMax (items.map fun item => item.position.z)

/-- Source: `updateItemZIndex(items, itemId)`: gives the targeted item `maxZ + 1`,
leaves every other item's `z` unchanged. -/
def updateItemZIndex (items : List WhiteboardItem) (itemId : String) : List WhiteboardItem :=
  items.map fun item =>
    { item with position :=
        { item.position with
            z := if item.id = itemId then maxZ items + 1 else item.position.z } }

/-! ### hooks/useWhiteboardItems.ts -/

/-- The `.transform-container` element as the drag handlers observe it: its
bounding client rect, and the value of its `--scale` CSS custom property
after `parseFloat` (`none` models a missing or unparsable property, i.e. the
`NaN` case). -/
structure ContainerInfo where
  left : ℚ
  top : ℚ
  width : ℚ
  height : ℚ
  scaleVar : Option ℚ
deriving DecidableEq, Repr, Inhabited

/-- Source: `getContainerScale()`: `1` when the container is absent or its `--scale`
property does not parse to a number, otherwise the parsed value. -/
def getContainerScale : Option ContainerInfo → ℚ
  | none => 1
  | some c =>
    match c.scaleVar with
    | none => 1
    | some s => s

/-- The `dragState` ref of `useWhiteboardItems`. -/
structure DragState where
  itemId : Option String
  initialMousePos : Option Point
  initialItemPos : Option Point
  offset : Option Point
deriving DecidableEq, Repr, Inhabited

/-- The initial/cleared drag state. -/
def emptyDragState : DragState :=
  { itemId := none, initialMousePos := none, initialItemPos := none, offset := none }

/-- The state owned by `useWhiteboardItems`: the item list, the `dragging`
id, and the drag-session ref. -/
structure ItemsState where
  items : List WhiteboardItem
  dragging : Option String
  drag : DragState
deriving DecidableEq, Repr, Inhabited

/-- Source: `handleDragMove(event)`: converts the mouse position to coordinates
relative to the container center (divided by the container scale) and moves
the dragged item there, minus the stored grab offset.  Early-returns when no
drag session is active or the container is absent. -/
def handleDragMove (env : Option ContainerInfo) (clientX clientY : ℚ)
    (st : ItemsState) : ItemsState :=
  match st.drag.itemId, st.drag.offset with
  | some itemId, some offset =>
    match env with
    | none => st
    | some c =>
      let scale := getContainerScale env
      let centerX := c.left + c.width / 2
      let centerY := c.top + c.height / 2
      let relativeMouseX := (clientX - centerX) / scale
      let relativeMouseY := (clientY - centerY) / scale
      let newX := relativeMouseX - offset.x
      let newY := relativeMouseY - offset.y
      { st with items := st.items.map fun item =>
          if item.id = itemId then
            { item with position := { item.position with x := newX, y := newY } }
          else item }
  | _, _ => st

/-- Source: `handleDragEnd()`: clears `dragging` and the drag session. -/
def handleDragEnd (st : ItemsState) : ItemsState :=
  { st with dragging := none, drag := emptyDragState }

/-- Source: `handleDragStart(id, event)`: finds the item, reads the container rect
and scale, converts the mouse position to center-relative coordinates,
stores the grab offset and sets `dragging`.  (It registers document-level
move/up listeners as a side effect; it does not modify `items`.) -/
def handleDragStart (id : String) (env : Option ContainerInfo)
    (clientX clientY : ℚ) (st : ItemsState) : ItemsState :=
  match st.items.find? (fun i => i.id = id) with
  | none => st
  | some item =>
    match env with
    | none => st
    | some c =>
      let scale := getContainerScale env
      let centerX := c.left + c.width / 2
      let centerY := c.top + c.height / 2
      let relativeMouseX := (clientX - centerX) / scale
      let relativeMouseY := (clientY - centerY) / scale
      let offset : Point :=
        { x := relativeMouseX - item.position.x, y := relativeMouseY - item.position.y }
      { st with
          dragging := some id,
          drag :=
            { itemId := some id,
              initialMousePos := some { x := relativeMouseX, y := relativeMouseY },
              initialItemPos := some { x := item.position.x, y := item.position.y },
              offset := some offset } }

/-! ### utils/contentMeasurement.ts -/

/-- The DOM-derived quantities `contentMeasurement.ts` reads from a card
element: whether a `.sticky-note-content` container exists, the off-screen
clone's `scrollHeight`/`scrollWidth`, and the text lengths used by
`estimateContentComplexity`. -/
structure CardDOM where
  hasContentContainer : Bool
  naturalHeight : ℚ
  naturalWidth : ℚ
  preTextLength : ℚ
  totalTextLength : ℚ
deriving DecidableEq, Repr, Inhabited

/-- Result record of `measureContentHeight`. -/
structure MeasureResult where
  requiredHeight : ℚ
  requiredWidth : ℚ
  hasOverflow : Bool
deriving DecidableEq, Repr, Inhabited

/-- Source: `measureContentHeight(cardElement)` (the `!cardElement` guard is handled
by the callers' optional card handle, so the element itself is present). -/
def measureContentHeight (card : CardDOM) : MeasureResult :=
  if !card.hasContentContainer then
    { requiredHeight := STICKY_NOTE.HEIGHT, requiredWidth := STICKY_NOTE.WIDTH,
      hasOverflow := false }
  else
    let BUTTON_SPACING : ℚ := 48
    let CARD_PADDING : ℚ := 32
    let CONTENT_MARGIN : ℚ := 16
    let requiredContentHeight := card.naturalHeight + CONTENT_MARGIN
    let requiredTotalHeight := max (requiredContentHeight + BUTTON_SPACING) STICKY_NOTE.MIN_HEIGHT
    let requiredWidth := max (min (card.naturalWidth + CARD_PADDING) STICKY_NOTE.MAX_WIDTH)
      STICKY_NOTE.MIN_WIDTH
    let hasOverflow :=
      decide (requiredTotalHeight > STICKY_NOTE.HEIGHT) || decide (requiredWidth > STICKY_NOTE.WIDTH)
    { requiredHeight := min requiredTotalHeight STICKY_NOTE.MAX_HEIGHT,
      requiredWidth := requiredWidth,
      hasOverflow := hasOverflow }

/-- Result record of `estimateContentComplexity`. -/
structure Complexity where
  isTextHeavy : Bool
  approximateTextLength : ℚ
deriving DecidableEq, Repr, Inhabited

/-- Source: `estimateContentComplexity(cardElement)`. -/
def estimateContentComplexity (card : CardDOM) : Complexity :=
  { isTextHeavy := decide (card.preTextLength > 200) || decide (card.totalTextLength > 400),
    approximateTextLength := card.totalTextLength }

/-- Source: `calculateOptimalSize(cardElement, isCurrentlyExpanded)`; returns the
`{width, height}` pair. -/
def calculateOptimalSize (card : CardDOM) (isCurrentlyExpanded : Bool) : ℚ × ℚ :=
  if isCurrentlyExpanded then
    (STICKY_NOTE.WIDTH, STICKY_NOTE.HEIGHT)
  else
    let measurement := measureContentHeight card
    let complexity := estimateContentComplexity card
    if complexity.isTextHeavy then
      let estimatedHeight :=
        max (max measurement.requiredHeight (STICKY_NOTE.HEIGHT * 2))
          (min (complexity.approximateTextLength * (6/5)) STICKY_NOTE.MAX_HEIGHT)
      (min (STICKY_NOTE.WIDTH * (8/5)) STICKY_NOTE.MAX_WIDTH, estimatedHeight)
    else if measurement.hasOverflow then
      (measurement.requiredWidth, measurement.requiredHeight)
    else
      (STICKY_NOTE.WIDTH * (7/5), STICKY_NOTE.HEIGHT * (7/5))

/-- The `cardElement?` argument of `handleExpand`: absent (`null`/omitted), a
measurable element, or an element on which `calculateOptimalSize` throws
(the `catch` branch keeps the fallback dimensions). -/
inductive CardHandle where
  | missing : CardHandle
  | throwing : CardHandle
  | dom : CardDOM → CardHandle
deriving DecidableEq, Repr, Inhabited

/-- Source: `handleExpand(id, cardElement?)` restricted to its effect on `items`
(the mobile zoom-to-fit callback touches the view transform, not the items):
toggles `expanded` for the item with the given id and sets its
width/height to the fallback pair, or to `calculateOptimalSize`'s result
when a measurable card element is supplied. -/
def handleExpand (id : String) (card : CardHandle)
    (items : List WhiteboardItem) : List WhiteboardItem :=
  items.map fun item =>
    if item.id = id then
      let isExpanded := item.position.expanded
      let fallback : ℚ × ℚ :=
        (if isExpanded then STICKY_NOTE.WIDTH else STICKY_NOTE.WIDTH * (3/2),
         if isExpanded then STICKY_NOTE.HEIGHT else STICKY_NOTE.HEIGHT * (3/2))
      let newDimensions :=
        match card with
        | CardHandle.missing => fallback
        | CardHandle.throwing => fallback
        | CardHandle.dom d => calculateOptimalSize d isExpanded
      { item with position :=
          { item.position with
              width := newDimensions.1,
              height := newDimensions.2,
              expanded := !isExpanded } }
    else item

/-! ### hooks/useCardFocus.ts -/

/-- The state owned by `useCardFocus` together with the view transform it
drives through `updateTransform`. -/
structure FocusState where
  currentIndex : ℕ
  transform : Transform
deriving DecidableEq, Repr, Inhabited

/-- Source: `getZoomLevel()`: `1.2` on mobile, `1.5` on desktop. -/
def getZoomLevel (isMobile : Bool) : ℚ :=
  if isMobile then 6/5 else 3/2

/-- Source: `Math.round(q * 100) / 100` (JavaScript rounds half toward `+∞`, as
does Mathlib's `round`). -/
def roundHundredths (q : ℚ) : ℚ :=
  (round (q * 100) : ℤ) / 100

/-- Source: `focusOnCard(index)`: no-op on an empty item list; otherwise wraps the
index with `((index % n) + n) % n` (JavaScript `%` is the truncating
remainder `Int.tmod`), records it as `currentIndex`, and centers the view on
the wrapped card at the device zoom level via `updateTransform`. -/
def focusOnCard (vp : Viewport) (isMobile : Bool) (items : List WhiteboardItem)
    (index : ℤ) (st : FocusState) : FocusState :=
  if items.length = 0 then st
  else
    let n : ℤ := items.length
    let clampedIndex := ((index.tmod n) + n).tmod n
    let card := items.getD clampedIndex.toNat default
    let zoomLevel := getZoomLevel isMobile
    let targetX := roundHundredths (-(card.position.x) * zoomLevel)
    let targetY := roundHundredths (-(card.position.y) * zoomLevel)
    { currentIndex := clampedIndex.toNat,
      transform := updateTransform vp { x := targetX, y := targetY, scale := zoomLevel } }

/-- Source: `onFocusNext()`: `focusOnCard(currentIndex + 1)`. -/
def onFocusNext (vp : Viewport) (isMobile : Bool) (items : List WhiteboardItem)
    (st : FocusState) : FocusState :=
  focusOnCard vp isMobile items ((st.currentIndex : ℤ) + 1) st

/-- Source: `onFocusPrev()`: `focusOnCard(currentIndex - 1)`. -/
def onFocusPrev (vp : Viewport) (isMobile : Bool) (items : List WhiteboardItem)
    (st : FocusState) : FocusState :=
  focusOnCard vp isMobile items ((st.currentIndex : ℤ) - 1) st

/-! ### JavaScript number semantics for `clampScale` -/

/-- A JavaScript number as `clampScale` can observe it: `NaN`, `±Infinity`,
or a finite value. -/
inductive JSNum where
  | nan : JSNum
  | posInf : JSNum
  | negInf : JSNum
  | fin : ℚ → JSNum
deriving DecidableEq, Repr, Inhabited

/-- Source: `Math.max(a, b)`: `NaN` if either argument is `NaN`, else the larger
value with the usual infinity ordering. -/
def jsMax : JSNum → JSNum → JSNum
  | JSNum.nan, _ => JSNum.nan
  | _, JSNum.nan => JSNum.nan
  | JSNum.posInf, _ => JSNum.posInf
  | _, JSNum.posInf => JSNum.posInf
  | JSNum.negInf, b => b
  | a, JSNum.negInf => a
  | JSNum.fin a, JSNum.fin b => JSNum.fin (max a b)

/-- Source: `Math.min(a, b)`: `NaN` if either argument is `NaN`, else the smaller
value with the usual infinity ordering. -/
def jsMin : JSNum → JSNum → JSNum
  | JSNum.nan, _ => JSNum.nan
  | _, JSNum.nan => JSNum.nan
  | JSNum.negInf, _ => JSNum.negInf
  | _, JSNum.negInf => JSNum.negInf
  | JSNum.posInf, b => b
  | a, JSNum.posInf => a
  | JSNum.fin a, JSNum.fin b => JSNum.fin (min a b)

namespace JS

/-- Source: `clampScale` under IEEE/JavaScript `Math.min`/`Math.max` semantics:
`Math.min(Math.max(scale, minScale), maxScale)`. -/
def clampScale (scale minScale maxScale : JSNum) : JSNum :=
  jsMin (jsMax scale minScale) maxScale

end JS

/-! ### Helper lemmas -/

/-- Bounds of the rational `clampScale` when `minScale ≤ maxScale`. -/
theorem clampScale_bounds (s mn mx : ℚ) (h : mn ≤ mx) :
    mn ≤ clampScale s mn mx ∧ clampScale s mn mx ≤ mx := by
  unfold clampScale
  exact ⟨le_min (le_max_right s mn) h, min_le_right _ _⟩

/-- A left fold by `max` never drops below a lower bound of its seed. -/
theorem le_foldl_max_of_le {l : List ℚ} {a b : ℚ} (h : b ≤ a) : b ≤ l.foldl max a := by
  induction l generalizing a with
  | nil => simpa using h
  | cons x xs ih => exact ih (le_trans h (le_max_left a x))

/-- Every member of a list is below a left fold of the list by `max`. -/
theorem le_foldl_max_of_mem {l : List ℚ} {q : ℚ} (h : q ∈ l) (a : ℚ) :
    q ≤ l.foldl max a := by
  induction l generalizing a with
  | nil => simp at h
  | cons x xs ih =>
    rw [List.foldl_cons]
    rcases List.mem_cons.mp h with rfl | hx
    · exact le_foldl_max_of_le (le_max_right a q)
    · exact ih hx (max a x)

/-- Every member of a list is at most its `listMax`. -/
theorem le_listMax_of_mem {l : List ℚ} {q : ℚ} (h : q ∈ l) : q ≤ listMax l := by
  cases l with
  | nil => simp at h
  | cons x xs =>
    unfold listMax
    rcases List.mem_cons.mp h with rfl | hx
    · exact le_foldl_max_of_le (le_refl q)
    · exact le_foldl_max_of_mem hx x

/-- The JavaScript double-remainder wrap `((a % n) + n) % n` (with the
truncating `%` of JavaScript) equals the Euclidean remainder. -/
theorem tmod_wrap (a n : ℤ) (hn : 0 < n) : ((a.tmod n) + n).tmod n = a % n := by
  have hub : a.tmod n < n := Int.tmod_lt_of_pos a hn
  have hlb : -n < a.tmod n := by
    rcases le_or_lt 0 a with ha | ha
    · have := Int.tmod_nonneg n ha
      linarith
    · have h1 : a.tmod n = -((-a).tmod n) := by
        rw [Int.tmod_def, Int.tmod_def, Int.neg_tdiv]
        ring
      have h2 : (-a).tmod n < n := Int.tmod_lt_of_pos (-a) hn
      omega
  have h0 : 0 ≤ a.tmod n + n := by omega
  rw [Int.tmod_eq_emod h0 (le_of_lt hn)]
  have hdrop : (a.tmod n + n) % n = (a.tmod n) % n := by
    have := Int.add_mul_emod_self_left (a.tmod n) n 1
    simp only [mul_one] at this
    exact this
  rw [hdrop]
  have hdecomp : a.tmod n = a - n * a.tdiv n := by
    have := Int.tmod_add_tdiv a n
    linarith
  rw [hdecomp]
  have hshift := Int.add_mul_emod_self_left a n (-(a.tdiv n))
  calc (a - n * a.tdiv n) % n = (a + n * (-(a.tdiv n))) % n := by ring_nf
    _ = a % n := hshift

/-- On a non-empty item list, `focusOnCard`'s resulting `currentIndex` is
the Euclidean remainder of the requested index modulo the list length. -/
theorem focusOnCard_currentIndex (vp : Viewport) (m : Bool)
    (items : List WhiteboardItem) (index : ℤ) (st : FocusState)
    (hne : 0 < items.length) :
    ((focusOnCard vp m items index st).currentIndex : ℤ) =
      index % (items.length : ℤ) := by
  have hn0 : items.length ≠ 0 := by omega
  have hnz : (0 : ℤ) < (items.length : ℤ) := by exact_mod_cast hne
  unfold focusOnCard
  rw [if_neg hn0]
  simp only []
  rw [tmod_wrap index (items.length : ℤ) hnz]
  exact Int.toNat_of_nonneg (Int.emod_nonneg index (by omega))

/-! ### Claim theorems -/

/-- C1: the claimed focus preservation fails on the code.  With viewport
`1000 × 800` (center `(500, 400)`), transform `(x, y, scale) = (0, 0, 1)`,
focal screen point `P = (510, 400)` and new scale `2` (both scales inside
`[MIN_SCALE, MAX_SCALE]`), the world point `(10, 0)` maps to `P` under the
current transform, but under the transform produced by
`handleZoom(2, 510, 400)` (which is `(-5, 0, 2)`) it maps to `(515, 400)`,
five pixels away from `P` — an exact rational computation, far outside
floating-point tolerance. -/
theorem handleZoom_focal_drift :
    SCALES.MIN ≤ (1 : ℚ) ∧ (1 : ℚ) ≤ SCALES.MAX ∧
    SCALES.MIN ≤ (2 : ℚ) ∧ (2 : ℚ) ≤ SCALES.MAX ∧
    worldToScreen ⟨1000, 800⟩ ⟨0, 0, 1⟩ ⟨10, 0⟩ = ⟨510, 400⟩ ∧
    handleZoom ⟨1000, 800⟩ ⟨0, 0, 1⟩ 2 510 400 = ⟨-5, 0, 2⟩ ∧
    worldToScreen ⟨1000, 800⟩ (handleZoom ⟨1000, 800⟩ ⟨0, 0, 1⟩ 2 510 400) ⟨10, 0⟩
      = ⟨515, 400⟩ ∧
    (⟨515, 400⟩ : Point) ≠ (⟨510, 400⟩ : Point) := by
  refine ⟨by norm_num [SCALES.MIN], by norm_num [SCALES.MAX],
    by norm_num [SCALES.MIN], by norm_num [SCALES.MAX], ?_, ?_, ?_, ?_⟩
  · simp only [worldToScreen]
    norm_num
  · simp only [handleZoom, updateTransform, clampScale, SCALES.MIN, SCALES.MAX]
    norm_num
  · simp only [handleZoom, updateTransform, worldToScreen, clampScale, SCALES.MIN, SCALES.MAX]
    norm_num
  · intro h
    have := congrArg Point.x h
    norm_num at this

/-- C2: after every `updateTransform` call of any sequence of updates
(direct or functional, hence covering zoom, pan, focus-jump and
`centerView`), the resulting scale lies in `[SCALES.MIN, SCALES.MAX]`
(`0.1 ≤ scale ≤ 2`) regardless of the scale value requested. -/
theorem updateTransform_scale_invariant (vp : Viewport) (t0 : Transform)
    (us : List (Transform → Transform)) (t : Transform)
    (ht : t ∈ runUpdates vp t0 us) :
    SCALES.MIN ≤ t.scale ∧ t.scale ≤ SCALES.MAX := by
  induction us generalizing t0 with
  | nil => simp [runUpdates] at ht
  | cons u us ih =>
    rw [runUpdates] at ht
    rcases List.mem_cons.mp ht with h | h
    · subst h
      simp only [updateTransform]
      exact clampScale_bounds _ _ _ (by norm_num [SCALES.MIN, SCALES.MAX])
    · exact ih _ h

/-- Witness for C2: one concrete update requesting scale `100` lands on
scale `2`, inside the bounds. -/
theorem updateTransform_scale_invariant_witness :
    SCALES.MIN ≤ (⟨0, 0, 2⟩ : Transform).scale ∧
      (⟨0, 0, 2⟩ : Transform).scale ≤ SCALES.MAX :=
  updateTransform_scale_invariant ⟨1000, 800⟩ ⟨0, 0, 3/10⟩
    [fun _ => ⟨0, 0, 100⟩] ⟨0, 0, 2⟩
    (by norm_num [runUpdates, updateTransform, clampScale, SCALES.MIN, SCALES.MAX])

/-- C6: on the empty item list, `focusOnCard` (with any index, including the
`focusNext`/`focusPrev` wrappers) is a guarded no-op, leaving both
`currentIndex` and the transform unchanged (the modulo-by-zero computation
is never reached). -/
theorem focus_empty_noop (vp : Viewport) (m : Bool) (index : ℤ) (st : FocusState) :
    focusOnCard vp m [] index st = st ∧
    onFocusNext vp m [] st = st ∧
    onFocusPrev vp m [] st = st := by
  refine ⟨?_, ?_, ?_⟩ <;> simp [focusOnCard, onFocusNext, onFocusPrev]

/-- C9 counterexample: `clampScale(NaN, 0.1, 2)` evaluates to `NaN` under
JavaScript `Math.min`/`Math.max` semantics, so `clampScale` does propagate
`NaN` to its result (and the result is not a value in `[0.1, 2]`),
contradicting the claim's totality/no-NaN-propagation statement. -/
theorem clampScale_nan_propagates :
    JS.clampScale JSNum.nan (JSNum.fin (1/10)) (JSNum.fin 2) = JSNum.nan ∧
    JSNum.nan ≠ JSNum.fin (1/10) ∧ JSNum.nan ≠ JSNum.fin 2 := by
  refine ⟨rfl, ?_, ?_⟩ <;> intro h <;> cases h

/-- C9 amended: for finite bounds with `min ≤ max`, `clampScale` maps every
non-`NaN` input (finite or `±Infinity`) to a finite value in `[min, max]`
— in particular it never propagates an infinity — and it is idempotent on
every input, `NaN` included; a `NaN` input, however, propagates. -/
theorem clampScale_total_idempotent (s : JSNum) (mn mx : ℚ) (hmn : mn ≤ mx) :
    (s ≠ JSNum.nan →
      ∃ q : ℚ, JS.clampScale s (JSNum.fin mn) (JSNum.fin mx) = JSNum.fin q ∧
        mn ≤ q ∧ q ≤ mx) ∧
    JS.clampScale (JS.clampScale s (JSNum.fin mn) (JSNum.fin mx))
        (JSNum.fin mn) (JSNum.fin mx)
      = JS.clampScale s (JSNum.fin mn) (JSNum.fin mx) := by
  have hfix : ∀ q : ℚ, mn ≤ q → q ≤ mx →
      JS.clampScale (JSNum.fin q) (JSNum.fin mn) (JSNum.fin mx) = JSNum.fin q := by
    intro q h1 h2
    simp only [JS.clampScale, jsMax, jsMin]
    rw [max_eq_left h1, min_eq_left h2]
  cases s with
  | nan => exact ⟨fun h => absurd rfl h, rfl⟩
  | posInf =>
    have hval : JS.clampScale JSNum.posInf (JSNum.fin mn) (JSNum.fin mx) = JSNum.fin mx := rfl
    refine ⟨fun _ => ⟨mx, hval, hmn, le_refl mx⟩, ?_⟩
    rw [hval, hfix mx hmn (le_refl mx)]
  | negInf =>
    have hval : JS.clampScale JSNum.negInf (JSNum.fin mn) (JSNum.fin mx)
        = JSNum.fin (min mn mx) := rfl
    rw [min_eq_left hmn] at hval
    refine ⟨fun _ => ⟨mn, hval, le_refl mn, hmn⟩, ?_⟩
    rw [hval, hfix mn (le_refl mn) hmn]
  | fin q =>
    have hval : JS.clampScale (JSNum.fin q) (JSNum.fin mn) (JSNum.fin mx)
        = JSNum.fin (clampScale q mn mx) := rfl
    obtain ⟨h1, h2⟩ := clampScale_bounds q mn mx hmn
    refine ⟨fun _ => ⟨clampScale q mn mx, hval, h1, h2⟩, ?_⟩
    rw [hval, hfix _ h1 h2]

/-- C3 counterexample: on the two-item list produced by the initial layout
(z values `0` and `1`), a drag start on item `"a"` leaves the item list —
and so every `z` — unchanged, while `max(z) + 1 = 2`; the dragged item's `z`
stays `0 ≠ 2`, so `handleDragStart` does not assign `z = max(z) + 1`. -/
theorem handleDragStart_no_z_raise :
    (handleDragStart "a" (some ⟨0, 0, 1000, 800, some 1⟩) 5 5
        ⟨[⟨"a", "snip", ⟨0, 0, 0, 280, 320, false, 0⟩⟩,
          ⟨"b", "snip", ⟨450, 0, 1, 280, 320, false, 0⟩⟩], none, emptyDragState⟩).items =
      [⟨"a", "snip", ⟨0, 0, 0, 280, 320, false, 0⟩⟩,
       ⟨"b", "snip", ⟨450, 0, 1, 280, 320, false, 0⟩⟩] ∧
    maxZ [⟨"a", "snip", ⟨0, 0, 0, 280, 320, false, 0⟩⟩,
          ⟨"b", "snip", ⟨450, 0, 1, 280, 320, false, 0⟩⟩] + 1 = 2 ∧
    ((0 : ℚ) ≠ 2) := by
  refine ⟨by rfl, ?_, by norm_num⟩
  norm_num [maxZ, listMax, max_def]

/-- C3 amended: `handleDragStart` never modifies the item list (so no `z` is
raised on drag start); the z-raise lives in the uncalled helper
`updateItemZIndex`, which assigns the targeted item `z = max(z) + 1` over
all items, keeps every other item's `z`, and thereby gives the targeted item
a `z` strictly greater than every other item's. -/
theorem updateItemZIndex_raises (items : List WhiteboardItem) (itemId : String)
    (st : ItemsState) (id : String) (env : Option ContainerInfo) (cx cy : ℚ)
    (i : ℕ) (it : WhiteboardItem) (hit : items[i]? = some it) :
    (handleDragStart id env cx cy st).items = st.items ∧
    ∃ it', (updateItemZIndex items itemId)[i]? = some it' ∧
      it'.id = it.id ∧
      (it.id = itemId → it'.position.z = maxZ items + 1) ∧
      (it.id ≠ itemId → it'.position.z = it.position.z ∧
        it'.position.z < maxZ items + 1) := by
  constructor
  · unfold handleDragStart
    cases hfind : st.items.find? (fun i => i.id = id) with
    | none => rfl
    | some item =>
      cases env with
      | none => rfl
      | some c => rfl
  · unfold updateItemZIndex
    rw [List.getElem?_map, hit]
    refine ⟨_, rfl, rfl, ?_, ?_⟩
    · intro h
      simp [h]
    · intro h
      refine ⟨by simp [h], ?_⟩
      have hmem : it ∈ items := List.getElem?_mem hit
      have hz : it.position.z ∈ items.map (fun item => item.position.z) :=
        List.mem_map_of_mem _ hmem
      have hle : it.position.z ≤ maxZ items := le_listMax_of_mem hz
      simp only [h, if_false]
      simp [h]
      linarith

/-- Witness for C3 amended: the two-item layout list, targeting item `"a"`. -/
theorem updateItemZIndex_raises_witness :
    (handleDragStart "a" (some ⟨0, 0, 1000, 800, some 1⟩) 5 5
        ⟨[⟨"a", "snip", ⟨0, 0, 0, 280, 320, false, 0⟩⟩,
          ⟨"b", "snip", ⟨450, 0, 1, 280, 320, false, 0⟩⟩], none, emptyDragState⟩).items =
      (⟨[⟨"a", "snip", ⟨0, 0, 0, 280, 320, false, 0⟩⟩,
         ⟨"b", "snip", ⟨450, 0, 1, 280, 320, false, 0⟩⟩], none,
        emptyDragState⟩ : ItemsState).items ∧
    ∃ it', (updateItemZIndex
        [⟨"a", "snip", ⟨0, 0, 0, 280, 320, false, 0⟩⟩,
         ⟨"b", "snip", ⟨450, 0, 1, 280, 320, false, 0⟩⟩] "a")[0]? = some it' ∧
      it'.id = (⟨"a", "snip", ⟨0, 0, 0, 280, 320, false, 0⟩⟩ : WhiteboardItem).id ∧
      ((⟨"a", "snip", ⟨0, 0, 0, 280, 320, false, 0⟩⟩ : WhiteboardItem).id = "a" →
        it'.position.z = maxZ
          [⟨"a", "snip", ⟨0, 0, 0, 280, 320, false, 0⟩⟩,
           ⟨"b", "snip", ⟨450, 0, 1, 280, 320, false, 0⟩⟩] + 1) ∧
      ((⟨"a", "snip", ⟨0, 0, 0, 280, 320, false, 0⟩⟩ : WhiteboardItem).id ≠ "a" →
        it'.position.z =
          (⟨"a", "snip", ⟨0, 0, 0, 280, 320, false, 0⟩⟩ : WhiteboardItem).position.z ∧
        it'.position.z < maxZ
          [⟨"a", "snip", ⟨0, 0, 0, 280, 320, false, 0⟩⟩,
           ⟨"b", "snip", ⟨450, 0, 1, 280, 320, false, 0⟩⟩] + 1) :=
  updateItemZIndex_raises
    [⟨"a", "snip", ⟨0, 0, 0, 280, 320, false, 0⟩⟩,
     ⟨"b", "snip", ⟨450, 0, 1, 280, 320, false, 0⟩⟩] "a"
    ⟨[⟨"a", "snip", ⟨0, 0, 0, 280, 320, false, 0⟩⟩,
      ⟨"b", "snip", ⟨450, 0, 1, 280, 320, false, 0⟩⟩], none, emptyDragState⟩
    "a" (some ⟨0, 0, 1000, 800, some 1⟩) 5 5 0
    ⟨"a", "snip", ⟨0, 0, 0, 280, 320, false, 0⟩⟩ rfl

/-- C4: starting from a collapsed item, applying `handleExpand` twice
(expand then collapse), with any card handle and hence any value the
measurement engine computes during the expand, restores exactly the default
sticky-note width and height and clears the `expanded` flag. -/
theorem handleExpand_roundtrip (items : List WhiteboardItem) (id : String)
    (c1 c2 : CardHandle) (i : ℕ) (it : WhiteboardItem)
    (hit : items[i]? = some it) (hid : it.id = id)
    (hcol : it.position.expanded = false) :
    ∃ it', (handleExpand id c2 (handleExpand id c1 items))[i]? = some it' ∧
      it'.position.width = STICKY_NOTE.WIDTH ∧
      it'.position.height = STICKY_NOTE.HEIGHT ∧
      it'.position.expanded = false := by
  unfold handleExpand
  rw [List.getElem?_map, List.getElem?_map, hit]
  refine ⟨_, rfl, ?_, ?_, ?_⟩ <;>
    cases c2 <;> simp [hid, hcol, calculateOptimalSize]

/-- Witness for C4: a single collapsed item expanded and collapsed with a
measured card element. -/
theorem handleExpand_roundtrip_witness :
    ∃ it', (handleExpand "a" (CardHandle.dom ⟨true, 1000, 600, 300, 500⟩)
        (handleExpand "a" (CardHandle.dom ⟨true, 1000, 600, 300, 500⟩)
          [⟨"a", "snip", ⟨0, 0, 0, 280, 320, false, 0⟩⟩]))[0]? = some it' ∧
      it'.position.width = STICKY_NOTE.WIDTH ∧
      it'.position.height = STICKY_NOTE.HEIGHT ∧
      it'.position.expanded = false :=
  handleExpand_roundtrip [⟨"a", "snip", ⟨0, 0, 0, 280, 320, false, 0⟩⟩] "a"
    (CardHandle.dom ⟨true, 1000, 600, 300, 500⟩)
    (CardHandle.dom ⟨true, 1000, 600, 300, 500⟩) 0
    ⟨"a", "snip", ⟨0, 0, 0, 280, 320, false, 0⟩⟩ rfl rfl rfl

/-- C5: on a non-empty list of `n` items, `focusOnCard` wraps any integer
index (negative ones included) to its Euclidean remainder modulo `n`
(which is `((index % n) + n) % n` under the truncating JavaScript `%`);
consequently `focusNext` from index `n - 1` lands on `0` and `focusPrev`
from index `0` lands on `n - 1`. -/
theorem focusOnCard_wrap (vp : Viewport) (m : Bool) (items : List WhiteboardItem)
    (index : ℤ) (st stLast st0 : FocusState)
    (hne : 0 < items.length)
    (hLast : stLast.currentIndex = items.length - 1)
    (h0 : st0.currentIndex = 0) :
    ((focusOnCard vp m items index st).currentIndex : ℤ) =
      index % (items.length : ℤ) ∧
    (onFocusNext vp m items stLast).currentIndex = 0 ∧
    (onFocusPrev vp m items st0).currentIndex = items.length - 1 := by
  refine ⟨focusOnCard_currentIndex vp m items index st hne, ?_, ?_⟩
  · unfold onFocusNext
    have hidx : (stLast.currentIndex : ℤ) + 1 = (items.length : ℤ) := by
      rw [hLast]; omega
    rw [hidx]
    have h := focusOnCard_currentIndex vp m items (items.length : ℤ) stLast hne
    rw [Int.emod_self] at h
    omega
  · unfold onFocusPrev
    have hidx : (st0.currentIndex : ℤ) - 1 = -1 := by
      rw [h0]; norm_num
    rw [hidx]
    have h := focusOnCard_currentIndex vp m items (-1) st0 hne
    have hmod : (-1 : ℤ) % (items.length : ℤ) = (items.length : ℤ) - 1 := by
      have h1 : ((items.length : ℤ) - 1 + (items.length : ℤ) * (-1)) % (items.length : ℤ)
          = ((items.length : ℤ) - 1) % (items.length : ℤ) :=
        Int.add_mul_emod_self_left _ _ _
      have h2 : ((items.length : ℤ) - 1) % (items.length : ℤ) = (items.length : ℤ) - 1 :=
        Int.emod_eq_of_lt (by omega) (by omega)
      have h3 : (items.length : ℤ) - 1 + (items.length : ℤ) * (-1) = -1 := by ring
      rw [h3] at h1
      rw [h1, h2]
    rw [hmod] at h
    omega

/-- Witness for C5: the concrete 5-item list; `focusPrev` at index `0`
yields index `4`. -/
theorem focusOnCard_wrap_witness :
    ((focusOnCard ⟨1000, 800⟩ false
        [⟨"0", "snip", ⟨0, 0, 0, 280, 320, false, 0⟩⟩,
         ⟨"1", "snip", ⟨450, 0, 1, 280, 320, false, 0⟩⟩,
         ⟨"2", "snip", ⟨900, 0, 2, 280, 320, false, 0⟩⟩,
         ⟨"3", "snip", ⟨0, 450, 3, 280, 320, false, 0⟩⟩,
         ⟨"4", "snip", ⟨450, 450, 4, 280, 320, false, 0⟩⟩] (-1)
        ⟨0, ⟨0, 0, 3/10⟩⟩).currentIndex : ℤ) =
      (-1) % (([⟨"0", "snip", ⟨0, 0, 0, 280, 320, false, 0⟩⟩,
         ⟨"1", "snip", ⟨450, 0, 1, 280, 320, false, 0⟩⟩,
         ⟨"2", "snip", ⟨900, 0, 2, 280, 320, false, 0⟩⟩,
         ⟨"3", "snip", ⟨0, 450, 3, 280, 320, false, 0⟩⟩,
         ⟨"4", "snip", ⟨450, 450, 4, 280, 320, false, 0⟩⟩] :
          List WhiteboardItem).length : ℤ) ∧
    (onFocusNext ⟨1000, 800⟩ false
        [⟨"0", "snip", ⟨0, 0, 0, 280, 320, false, 0⟩⟩,
         ⟨"1", "snip", ⟨450, 0, 1, 280, 320, false, 0⟩⟩,
         ⟨"2", "snip", ⟨900, 0, 2, 280, 320, false, 0⟩⟩,
         ⟨"3", "snip", ⟨0, 450, 3, 280, 320, false, 0⟩⟩,
         ⟨"4", "snip", ⟨450, 450, 4, 280, 320, false, 0⟩⟩]
        ⟨4, ⟨0, 0, 3/10⟩⟩).currentIndex = 0 ∧
    (onFocusPrev ⟨1000, 800⟩ false
        [⟨"0", "snip", ⟨0, 0, 0, 280, 320, false, 0⟩⟩,
         ⟨"1", "snip", ⟨450, 0, 1, 280, 320, false, 0⟩⟩,
         ⟨"2", "snip", ⟨900, 0, 2, 280, 320, false, 0⟩⟩,
         ⟨"3", "snip", ⟨0, 450, 3, 280, 320, false, 0⟩⟩,
         ⟨"4", "snip", ⟨450, 450, 4, 280, 320, false, 0⟩⟩]
        ⟨0, ⟨0, 0, 3/10⟩⟩).currentIndex =
      ([⟨"0", "snip", ⟨0, 0, 0, 280, 320, false, 0⟩⟩,
        ⟨"1", "snip", ⟨450, 0, 1, 280, 320, false, 0⟩⟩,
        ⟨"2", "snip", ⟨900, 0, 2, 280, 320, false, 0⟩⟩,
        ⟨"3", "snip", ⟨0, 450, 3, 280, 320, false, 0⟩⟩,
        ⟨"4", "snip", ⟨450, 450, 4, 280, 320, false, 0⟩⟩] :
         List WhiteboardItem).length - 1 :=
  focusOnCard_wrap ⟨1000, 800⟩ false
    [⟨"0", "snip", ⟨0, 0, 0, 280, 320, false, 0⟩⟩,
     ⟨"1", "snip", ⟨450, 0, 1, 280, 320, false, 0⟩⟩,
     ⟨"2", "snip", ⟨900, 0, 2, 280, 320, false, 0⟩⟩,
     ⟨"3", "snip", ⟨0, 450, 3, 280, 320, false, 0⟩⟩,
     ⟨"4", "snip", ⟨450, 450, 4, 280, 320, false, 0⟩⟩] (-1)
    ⟨0, ⟨0, 0, 3/10⟩⟩ ⟨4, ⟨0, 0, 3/10⟩⟩ ⟨0, ⟨0, 0, 3/10⟩⟩
    (by decide) rfl rfl

/-- C7: a pan-only wheel event (`deltaX = 100`, `deltaY = 0`, no modifier)
at scale `0.5` shifts `transform.x` by `100 * 2.5 / 0.5` — the wheel delta
times the pan-speed constant divided by the current scale, i.e. double the
unscaled delta `100 * 2.5` — and leaves the scale unchanged (the shift is
applied in the negative-x direction, within the pan bounds). -/
theorem handleWheel_pan_scenario (vp : Viewport) (t : Transform) (e : WheelEvent)
    (hscale : t.scale = 1/2) (hdx : e.deltaX = 100) (hdy : e.deltaY = 0)
    (hctrl : e.ctrlKey = false) (hmeta : e.metaKey = false)
    (hxlo : -(vp.innerWidth * 2) ≤ t.x - 500) (hxhi : t.x - 500 ≤ vp.innerWidth * 2) :
    (handleWheel vp t e).x = t.x - 100 * ((5/2) / (1/2)) ∧
    (handleWheel vp t e).x = t.x - 2 * (100 * (5/2)) ∧
    (handleWheel vp t e).scale = t.scale := by
  have hbranch : (e.ctrlKey || e.metaKey) = false := by
    rw [hctrl, hmeta]; rfl
  have hval : handleWheel vp t e = updateTransform vp ⟨t.x - 500, t.y, t.scale⟩ := by
    simp only [handleWheel, hbranch, Bool.false_eq_true, if_false, hdx, hdy, hscale]
    norm_num
  have hxv : (handleWheel vp t e).x = t.x - 500 := by
    rw [hval]
    simp only [updateTransform]
    rw [min_eq_right hxhi, max_eq_right hxlo]
  refine ⟨?_, ?_, ?_⟩
  · rw [hxv]; norm_num
  · rw [hxv]; norm_num
  · rw [hval]
    simp only [updateTransform, clampScale, SCALES.MIN, SCALES.MAX, hscale]
    rw [max_eq_left (by norm_num), min_eq_left (by norm_num)]

/-- Witness for C7: the concrete scenario at `transform = (0, 0, 0.5)` in a
`1000 × 800` viewport. -/
theorem handleWheel_pan_scenario_witness :
    (handleWheel ⟨1000, 800⟩ ⟨0, 0, 1/2⟩ ⟨100, 0, 0, 0, false, false⟩).x =
      (⟨0, 0, 1/2⟩ : Transform).x - 100 * ((5/2) / (1/2)) ∧
    (handleWheel ⟨1000, 800⟩ ⟨0, 0, 1/2⟩ ⟨100, 0, 0, 0, false, false⟩).x =
      (⟨0, 0, 1/2⟩ : Transform).x - 2 * (100 * (5/2)) ∧
    (handleWheel ⟨1000, 800⟩ ⟨0, 0, 1/2⟩ ⟨100, 0, 0, 0, false, false⟩).scale =
      (⟨0, 0, 1/2⟩ : Transform).scale :=
  handleWheel_pan_scenario ⟨1000, 800⟩ ⟨0, 0, 1/2⟩ ⟨100, 0, 0, 0, false, false⟩
    rfl rfl rfl rfl rfl (by norm_num) (by norm_num)

/-- C8: `handleExpand(id)` preserves the list length, changes at most the
`width`, `height` and `expanded` fields of the targeted item (its `x`, `y`,
`z`, `rotation`, `id` and `type` are untouched), and leaves every item whose
id differs from the target entirely unchanged. -/
theorem handleExpand_frame (items : List WhiteboardItem) (id : String)
    (card : CardHandle) (i : ℕ) (it : WhiteboardItem) (hit : items[i]? = some it) :
    (handleExpand id card items).length = items.length ∧
    ∃ it', (handleExpand id card items)[i]? = some it' ∧
      it'.id = it.id ∧ it'.type = it.type ∧
      it'.position.x = it.position.x ∧ it'.position.y = it.position.y ∧
      it'.position.z = it.position.z ∧
      it'.position.rotation = it.position.rotation ∧
      (it.id ≠ id → it' = it) := by
  constructor
  · unfold handleExpand
    exact List.length_map items _
  · unfold handleExpand
    rw [List.getElem?_map, hit]
    refine ⟨_, rfl, ?_, ?_, ?_, ?_, ?_, ?_, ?_⟩ <;>
      by_cases h : it.id = id <;> simp [h]

/-- Witness for C8: one targeted item with a measured card element. -/
theorem handleExpand_frame_witness :
    (handleExpand "a" (CardHandle.dom ⟨true, 1000, 600, 300, 500⟩)
        [⟨"a", "snip", ⟨7, 8, 2, 280, 320, false, 3/2⟩⟩]).length =
      ([⟨"a", "snip", ⟨7, 8, 2, 280, 320, false, 3/2⟩⟩] : List WhiteboardItem).length ∧
    ∃ it', (handleExpand "a" (CardHandle.dom ⟨true, 1000, 600, 300, 500⟩)
        [⟨"a", "snip", ⟨7, 8, 2, 280, 320, false, 3/2⟩⟩])[0]? = some it' ∧
      it'.id = (⟨"a", "snip", ⟨7, 8, 2, 280, 320, false, 3/2⟩⟩ : WhiteboardItem).id ∧
      it'.type = (⟨"a", "snip", ⟨7, 8, 2, 280, 320, false, 3/2⟩⟩ : WhiteboardItem).type ∧
      it'.position.x =
        (⟨"a", "snip", ⟨7, 8, 2, 280, 320, false, 3/2⟩⟩ : WhiteboardItem).position.x ∧
      it'.position.y =
        (⟨"a", "snip", ⟨7, 8, 2, 280, 320, false, 3/2⟩⟩ : WhiteboardItem).position.y ∧
      it'.position.z =
        (⟨"a", "snip", ⟨7, 8, 2, 280, 320, false, 3/2⟩⟩ : WhiteboardItem).position.z ∧
      it'.position.rotation =
        (⟨"a", "snip", ⟨7, 8, 2, 280, 320, false, 3/2⟩⟩ : WhiteboardItem).position.rotation ∧
      ((⟨"a", "snip", ⟨7, 8, 2, 280, 320, false, 3/2⟩⟩ : WhiteboardItem).id ≠ "a" →
        it' = ⟨"a", "snip", ⟨7, 8, 2, 280, 320, false, 3/2⟩⟩) :=
  handleExpand_frame [⟨"a", "snip", ⟨7, 8, 2, 280, 320, false, 3/2⟩⟩] "a"
    (CardHandle.dom ⟨true, 1000, 600, 300, 500⟩) 0
    ⟨"a", "snip", ⟨7, 8, 2, 280, 320, false, 3/2⟩⟩ rfl

/-- C10: when the transform container is present but its `--scale` custom
property is missing or unparsable (`parseFloat` gives `NaN`),
`getContainerScale` returns `1`, so `handleDragStart` stores the grab offset
and `handleDragMove` places the dragged item using the screen-to-world
conversion at scale `1` (plain center-relative subtraction, no division by
`NaN` or zero). -/
theorem getContainerScale_fallback (c : ContainerInfo) (st : ItemsState)
    (id dId : String) (item : WhiteboardItem) (off : Point) (cx cy : ℚ)
    (i : ℕ) (it : WhiteboardItem)
    (hvar : c.scaleVar = none)
    (hfind : st.items.find? (fun i => i.id = id) = some item)
    (hdrag : st.drag.itemId = some dId)
    (hoff : st.drag.offset = some off)
    (hit : st.items[i]? = some it)
    (hid : it.id = dId) :
    getContainerScale (some c) = 1 ∧
    (handleDragStart id (some c) cx cy st).drag.offset =
      some ⟨cx - (c.left + c.width / 2) - item.position.x,
            cy - (c.top + c.height / 2) - item.position.y⟩ ∧
    ∃ it', (handleDragMove (some c) cx cy st).items[i]? = some it' ∧
      it'.position.x = cx - (c.left + c.width / 2) - off.x ∧
      it'.position.y = cy - (c.top + c.height / 2) - off.y := by
  have hscale : getContainerScale (some c) = 1 := by
    simp [getContainerScale, hvar]
  refine ⟨hscale, ?_, ?_⟩
  · unfold handleDragStart
    rw [hfind]
    simp only [hscale]
    norm_num
  · unfold handleDragMove
    rw [hdrag, hoff]
    simp only [hscale]
    rw [List.getElem?_map, hit]
    refine ⟨_, rfl, ?_, ?_⟩ <;> simp [hid]

/-- Witness for C10: a container with no parsable `--scale`, an active drag
session on item `"a"` with offset `(3, 4)`, pointer at `(700, 500)`. -/
theorem getContainerScale_fallback_witness :
    getContainerScale (some ⟨0, 0, 1000, 800, none⟩) = 1 ∧
    (handleDragStart "a" (some ⟨0, 0, 1000, 800, none⟩) 700 500
        ⟨[⟨"a", "snip", ⟨0, 0, 0, 280, 320, false, 0⟩⟩], some "a",
          ⟨some "a", some ⟨1, 1⟩, some ⟨0, 0⟩, some ⟨3, 4⟩⟩⟩).drag.offset =
      some ⟨700 - ((0 : ℚ) + 1000 / 2) -
              (⟨"a", "snip", ⟨0, 0, 0, 280, 320, false, 0⟩⟩ : WhiteboardItem).position.x,
            500 - ((0 : ℚ) + 800 / 2) -
              (⟨"a", "snip", ⟨0, 0, 0, 280, 320, false, 0⟩⟩ : WhiteboardItem).position.y⟩ ∧
    ∃ it', (handleDragMove (some ⟨0, 0, 1000, 800, none⟩) 700 500
        ⟨[⟨"a", "snip", ⟨0, 0, 0, 280, 320, false, 0⟩⟩], some "a",
          ⟨some "a", some ⟨1, 1⟩, some ⟨0, 0⟩, some ⟨3, 4⟩⟩⟩).items[0]? = some it' ∧
      it'.position.x = 700 - ((0 : ℚ) + 1000 / 2) - (⟨3, 4⟩ : Point).x ∧
      it'.position.y = 500 - ((0 : ℚ) + 800 / 2) - (⟨3, 4⟩ : Point).y :=
  getContainerScale_fallback ⟨0, 0, 1000, 800, none⟩
    ⟨[⟨"a", "snip", ⟨0, 0, 0, 280, 320, false, 0⟩⟩], some "a",
      ⟨some "a", some ⟨1, 1⟩, some ⟨0, 0⟩, some ⟨3, 4⟩⟩⟩
    "a" "a" ⟨"a", "snip", ⟨0, 0, 0, 280, 320, false, 0⟩⟩ ⟨3, 4⟩ 700 500 0
    ⟨"a", "snip", ⟨0, 0, 0, 280, 320, false, 0⟩⟩
    rfl (by decide) rfl rfl rfl rfl

/-- Witness for C9 amended: input `5` with bounds `[0.1, 2]`. -/
theorem clampScale_total_idempotent_witness :
    ((JSNum.fin 5) ≠ JSNum.nan →
      ∃ q : ℚ, JS.clampScale (JSNum.fin 5) (JSNum.fin (1/10)) (JSNum.fin 2) = JSNum.fin q ∧
        1/10 ≤ q ∧ q ≤ 2) ∧
    JS.clampScale (JS.clampScale (JSNum.fin 5) (JSNum.fin (1/10)) (JSNum.fin 2))
        (JSNum.fin (1/10)) (JSNum.fin 2)
      = JS.clampScale (JSNum.fin 5) (JSNum.fin (1/10)) (JSNum.fin 2) :=
  clampScale_total_idempotent (JSNum.fin 5) (1/10) 2 (by norm_num)

end Whiteboard
